import Mathlib

/-!
Shallow embedding of `src/polyfile/debugger.py` (the PolyFile interactive
debugger engine) together with proofs of the behavioural properties stated
in the repository specification.

Conventions used throughout:
* Python `bytes` values are modelled as `List Nat`.
* Python `Optional[X]` is modelled as `Option X`.
* Exceptions are modelled with `Except PyErr`; a function that can leave a
  Python object in a mutated state while raising returns the resulting
  state next to the `Except` value.
* `MagicTest`, `TestResult` and `SourceInfo` live in `polyfile/magic.py`,
  which is outside this repository snapshot; they are modelled abstractly,
  keeping exactly the attributes `debugger.py` reads (`mimetypes()`,
  `all_extensions()`, `source_info`, truthiness of a result, and
  `isinstance(result, FailedTest)`).  `pathlib.Path` is likewise modelled
  by its two observations used here, `str(path)` and `path.name`.
-/

namespace PolyfileDebugger

/-- Python exceptions that the modelled code can raise. -/
inductive PyErr where
  | nameError (name : String) : PyErr
  | valueError (msg : String) : PyErr
deriving DecidableEq

/-- Python `str.lower()`, modelled on the character list (ASCII; Python
additionally lowercases non-ASCII letters, which no claim exercises). -/
def pyLower (s : String) : String :=
  String.mk (s.data.map Char.toLower)

/-- Python `str.strip()` with no argument: drop leading and trailing
whitespace (ASCII whitespace; Python also strips other Unicode
whitespace, which no claim exercises). -/
def pyStrip (s : String) : String :=
  String.mk (((s.data.dropWhile Char.isWhitespace).reverse.dropWhile
    Char.isWhitespace).reverse)

/-- Python `str.startswith(p)`. -/
def pyStartsWith (s p : String) : Bool :=
  p.data.isPrefixOf s.data

/-- Python slicing `s[n:]`. -/
def pyDrop (s : String) (n : Nat) : String :=
  String.mk (s.data.drop n)

/-- Python `c in s` for a single character. -/
def pyContainsChar (s : String) (c : Char) : Bool :=
  s.data.contains c

/-- Python `str.split(sep)` for a one-character separator, on character
lists: splitting the empty string gives `[""]`, and adjacent separators
give empty pieces. -/
def pySplitChars (sep : Char) : List Char → List (List Char)
  | [] => [[]]
  | c :: cs =>
    let rest := pySplitChars sep cs
    if c = sep then [] :: rest
    else
      match rest with
      | r :: rs => (c :: r) :: rs
      | [] => [[c]]

/-- Python `str.split(sep)` for a one-character separator. -/
def pySplit (sep : Char) (s : String) : List String :=
  (pySplitChars sep s.data).map String.mk

/-- Python `"".join(pieces)`. -/
def pyJoin (pieces : List String) : String :=
  String.mk (pieces.foldr (fun p acc => p.data ++ acc) [])

/-- Helper for `pySplitWS`: accumulate the current word (reversed) while
scanning. -/
def pyWordsAux (acc : List Char) : List Char → List String
  | [] => if acc.isEmpty then [] else [String.mk acc.reverse]
  | c :: cs =>
    if c.isWhitespace then
      if acc.isEmpty then pyWordsAux [] cs
      else String.mk acc.reverse :: pyWordsAux [] cs
    else pyWordsAux (c :: acc) cs

/-- Python `str.split()` with no separator: split on whitespace runs,
dropping empty pieces. -/
def pySplitWS (s : String) : List String :=
  pyWordsAux [] s.data

/-- Model of a `TestResult` object (external class from `polyfile.magic`).
`truthy` is the value of `bool(result)`; `isFailedTest` is the value of
`isinstance(result, FailedTest)`.  The two observations are kept
independent because the external class is not part of this snapshot. -/
structure TestResult where
  truthy : Bool
  isFailedTest : Bool
deriving DecidableEq

/-- Model of a test's `source_info` (external class): the originating DSL
file path and line number.  A `pathlib.Path` is modelled by the two
observations the debugger uses: `pathStr` is `str(path)` and `pathName` is
`path.name` (the final path component). -/
structure SourceInfo where
  pathStr : String
  pathName : String
  line : Int
deriving DecidableEq

/-- Model of a `MagicTest` object (external class from `polyfile.magic`),
restricted to the attributes `debugger.py` reads.  The `id` field stands
for Python object identity, so that `is` comparisons can be modelled by
equality. -/
structure MagicTest where
  id : Nat
  mimetypes : List String
  allExtensions : List String
  sourceInfo : Option SourceInfo
deriving DecidableEq

/-- Modelled from the spec: `polyfile/wildcards.py` is not part of this
snapshot.  Per the spec glossary, a MIME wildcard is a glob over MIME
strings using `*` (any run of characters) and `?` (any one character).
`globMatch pat s` decides whether the glob `pat` matches all of `s`. -/
def globMatch : List Char → List Char → Bool
  | [], s => s.isEmpty
  | '*' :: ps, s =>
    globMatch ps s ||
      (match s with
       | [] => false
       | _ :: ss => globMatch ('*' :: ps) ss)
  | '?' :: ps, s =>
    (match s with
     | [] => false
     | _ :: ss => globMatch ps ss)
  | c :: ps, s =>
    (match s with
     | [] => false
     | d :: ss => c == d && globMatch ps ss)
termination_by p s => (p.length, s.length)

/-- Modelled from the spec: `Wildcard.is_contained_in` — containment means
at least one MIME string in the set matches the glob (so an empty set
matches nothing). -/
def wildcardIsContainedIn (pattern : String) (mimes : List String) : Bool :=
  mimes.any fun m => globMatch pattern.data m.data

/-- The closed sum of breakpoint variants defined in `debugger.py`:
`FailedBreakpoint` (`!` prefix), `MatchedBreakpoint` (`=` prefix),
`MimeBreakpoint`, `ExtensionBreakpoint` and `FileBreakpoint`. -/
inductive Breakpoint where
  | failed (parent : Breakpoint) : Breakpoint
  | matched (parent : Breakpoint) : Breakpoint
  | mime (mimetype : String) : Breakpoint
  | ext (e : String) : Breakpoint
  | file (filename : String) (line : Int) : Breakpoint
deriving DecidableEq

/-- Evaluates `result is None or isinstance(result, FailedTest)`
(the guard of `FailedBreakpoint.should_break`, debugger.py:102). -/
def isNoneOrFailed : Option TestResult → Bool
  | none => true
  | some r => r.isFailedTest

/-- Evaluates `result is not None and not isinstance(result, FailedTest)`
(the guard of `MatchedBreakpoint.should_break`, debugger.py:136). -/
def isPresentNotFailed : Option TestResult → Bool
  | none => false
  | some r => !r.isFailedTest

/-- The slash character, used by `FileBreakpoint.should_break` for the
`"/" in self.filename` test. -/
def slashChar : Char := '/'

/-- Translation of the `should_break` methods of the five breakpoint
classes (debugger.py:94-245).  The argument order matches the Python
signature `(test, data, absolute_offset, parent_match, result)`.  The
wrapper variants short-circuit on the outcome guard exactly as the Python
`and` does. -/
def Breakpoint.shouldBreak :
    Breakpoint → MagicTest → List Nat → Int → Option TestResult → Option TestResult → Bool
  | .failed parent, test, data, absOff, parentMatch, result =>
    isNoneOrFailed result && parent.shouldBreak test data absOff parentMatch result
  | .matched parent, test, data, absOff, parentMatch, result =>
    isPresentNotFailed result && parent.shouldBreak test data absOff parentMatch result
  | .mime mimetype, test, _, _, _, _ =>
    wildcardIsContainedIn mimetype test.mimetypes
  | .ext e, test, _, _, _, _ =>
    test.allExtensions.contains e
  | .file filename line, test, _, _, _, _ =>
    match test.sourceInfo with
    | none => false
    | some si =>
      if si.line != line then false
      else if pyContainsChar filename slashChar then si.pathStr == filename
      else si.pathName == filename

/-- Translation of `MimeBreakpoint.parse` (debugger.py:173-177):
a case-insensitive `mime:` prefix; the remainder (original case) is the
wildcard pattern. -/
def MimeBreakpoint.parse (command : String) : Option Breakpoint :=
  if pyStartsWith (pyLower command) "mime:" then some (.mime (pyDrop command 5))
  else none

/-- Translation of `ExtensionBreakpoint.parse` (debugger.py:209-213):
a case-insensitive `ext:` prefix. -/
def ExtensionBreakpoint.parse (command : String) : Option Breakpoint :=
  if pyStartsWith (pyLower command) "ext:" then some (.ext (pyDrop command 4))
  else none

/-- Digit run of a Python integer literal after the first digit: single
underscores are allowed between digits (`int("1_2") == 12`). -/
def pyDigitsCore (acc : Nat) : List Char → Option Nat
  | [] => some acc
  | c :: cs =>
    if c.isDigit then pyDigitsCore (acc * 10 + (c.toNat - 48)) cs
    else if c = '_' then
      match cs with
      | d :: ds =>
        if d.isDigit then pyDigitsCore (acc * 10 + (d.toNat - 48)) ds else none
      | [] => none
    else none

/-- Digit run of a Python integer literal: at least one digit, then
`pyDigitsCore`. -/
def pyDigits : List Char → Option Nat
  | [] => none
  | c :: cs => if c.isDigit then pyDigitsCore (c.toNat - 48) cs else none

/-- Model of Python `int(s)` restricted to ASCII: surrounding whitespace
is stripped, an optional sign is accepted, then a digit run with optional
single underscores between digits.  (CPython additionally accepts Unicode
decimal digits and Unicode whitespace; no claim depends on those.)
Returns `none` where `int` raises `ValueError`. -/
def pyInt (s : String) : Option Int :=
  match (pyStrip s).data with
  | '+' :: rest => (pyDigits rest).map Int.ofNat
  | '-' :: rest => (pyDigits rest).map fun n => -(n : Int)
  | l => (pyDigits l).map Int.ofNat

/-- Translation of `FileBreakpoint.parse` (debugger.py:247-258): split on
`:`; refuse when no colon is present; join all remainder pieces and parse
as an int (`"a:1:2"` parses as line `12`); refuse non-integers and
non-positive lines. -/
def FileBreakpoint.parse (command : String) : Option Breakpoint :=
  match pySplit ':' command with
  | [] => none
  | filename :: remainder =>
    if remainder.isEmpty then none
    else
      match pyInt (pyJoin remainder) with
      | none => none
      | some line => if line ≤ 0 then none else some (.file filename line)

/-- The probing loop of `Breakpoint.from_str` over `BREAKPOINT_TYPES`
(debugger.py:74-78).  Registration order in `BREAKPOINT_TYPES` follows
class definition order with the two wrapper classes excluded
(debugger.py:47-50): `MimeBreakpoint`, `ExtensionBreakpoint`,
`FileBreakpoint`. -/
def Breakpoint.probe (command : String) : Option Breakpoint :=
  match MimeBreakpoint.parse command with
  | some parsed => some parsed
  | none =>
    match ExtensionBreakpoint.parse command with
    | some parsed => some parsed
    | none => FileBreakpoint.parse command

/-- Translation of `Breakpoint.from_str` (debugger.py:68-78) at the level
of character lists: a leading `!` delegates to `FailedBreakpoint.parse`
(which checks the prefix, re-parses the remainder recursively and wraps a
successful parse — an unparseable remainder stays `None`); a leading `=`
delegates likewise to `MatchedBreakpoint.parse`; otherwise each
registered breakpoint type is probed in order.  The recursion is
structural on the character list. -/
def Breakpoint.fromStrChars : List Char → Option Breakpoint
  | [] => Breakpoint.probe (String.mk [])
  | c :: rest =>
    if c = '!' then (Breakpoint.fromStrChars rest).map .failed
    else if c = '=' then (Breakpoint.fromStrChars rest).map .matched
    else Breakpoint.probe (String.mk (c :: rest))

/-- Translation of `Breakpoint.from_str` on strings. -/
def Breakpoint.from_str (command : String) : Option Breakpoint :=
  Breakpoint.fromStrChars command.data

/-- Model of a `Variable` object (debugger.py:345-359): the enumerated
`possibilities` list and the stored `_value`. -/
structure PyVariable (α : Type) where
  possibilities : List α
  value : α
deriving DecidableEq

/-- Translation of the `Variable.value` setter (debugger.py:355-359): the
source raises when `new_value not in self.possibilities` and assigns
otherwise; membership is checked before the assignment, so a rejected
value raises `ValueError` and leaves `_value` untouched.  The mutated (or
unchanged) object is returned next to the outcome. -/
def Variable.setValue [BEq α] (v : PyVariable α) (newValue : α) :
    Except PyErr Unit × PyVariable α :=
  if v.possibilities.contains newValue then
    (.ok (), { v with value := newValue })
  else
    (.error (.valueError "invalid value; must be one of the possibilities"), v)

/-- Translation of `Variable.__init__` (debugger.py:346-349): stores the
possibilities and the raw value, then runs the value through the setter;
a value outside the possibilities makes construction fail. -/
def Variable.mkChecked [BEq α] (possibilities : List α) (value : α) :
    Except PyErr (PyVariable α) :=
  let v0 : PyVariable α := { possibilities := possibilities, value := value }
  match Variable.setValue v0 value with
  | (.ok _, v1) => .ok v1
  | (.error e, _) => .error e

/-- Translation of `Variable.parse` (debugger.py:361-366): strip and
lowercase the token, then return the first possibility whose `str()`
lowercases to it; otherwise raise `ValueError`.  `strRepr` stands for
Python `str` on the element type. -/
def Variable.parse [BEq α] (strRepr : α → String) (v : PyVariable α) (s : String) :
    Except PyErr α :=
  let value := pyLower (pyStrip s)
  match v.possibilities.find? (fun p => pyLower (strRepr p) == value) with
  | some p => .ok p
  | none => .error (.valueError "Invalid value; must be one of the possibilities")

/-- Python `str` on booleans: `str(True) == "True"`, `str(False) == "False"`. -/
def pyBoolStr : Bool → String
  | true => "True"
  | false => "False"

/-- Translation of `BooleanVariable.__init__` (debugger.py:376-377): the
possibilities are `(True, False)`, so the checked constructor always
succeeds and reduces to this record. -/
def BooleanVariable.mkVar (value : Bool) : PyVariable Bool :=
  { possibilities := [true, false], value := value }

/-- Translation of `BooleanVariable.parse` (debugger.py:379-387): first
try `Variable.parse` (which recognises `true`/`false` via `str`), then
recognise `0`/`f` as `False`, and fall back to `bool(value)` — truthiness
of the stripped, lowercased token. -/
def BooleanVariable.parse (v : PyVariable Bool) (s : String) : Bool :=
  match Variable.parse pyBoolStr v s with
  | .ok p => p
  | .error _ =>
    let value := pyLower (pyStrip s)
    if value == "0" || value == "f" then false
    else value != ""

/-- Translation of the `StepMode` enum (debugger.py:339-342). -/
inductive StepMode where
  | running : StepMode
  | singleStepping : StepMode
  | next : StepMode
deriving DecidableEq

/-- The snapshot attributes of a `Debugger` instance that the claims
reason about (debugger.py:453-469): the step mode, the last REPL command,
and the last test invocation recorded by `Debugger.debug`, plus the
breakpoint list.  The source annotates `last_parent_match` as
`Optional[MagicTest]`, but every write to it stores the `parent_match`
argument of `debug`, a `TestResult`; the runtime type is modelled. -/
structure DState where
  stepMode : StepMode
  lastCommand : Option String
  lastTest : Option MagicTest
  lastParentMatch : Option TestResult
  data : List Nat
  lastOffset : Int
  lastResult : Option TestResult
  replTest : Option MagicTest
  breakpoints : List Breakpoint
deriving DecidableEq

/-- Truthiness of an `Optional[TestResult]`: `None` is falsy, otherwise
`bool(result)`. -/
def truthyOpt : Option TestResult → Bool
  | none => false
  | some r => r.truthy

/-- Translation of `Debugger.should_break` (debugger.py:558-564): single
stepping, or `NEXT` with a truthy `last_result`, or some breakpoint whose
predicate matches the snapshot.  In the source a `None` `last_test` would
raise `AttributeError` inside the breakpoint predicates; `should_break`
is only ever invoked after `Debugger.debug` stores a real test
(debugger.py:660-664), and that unreachable case is modelled as `false`. -/
def Debugger.should_break (st : DState) : Bool :=
  st.stepMode == .singleStepping ||
    (st.stepMode == .next && truthyOpt st.lastResult) ||
    st.breakpoints.any fun b =>
      match st.lastTest with
      | some t => b.shouldBreak t st.data st.lastOffset st.lastParentMatch st.lastResult
      | none => false

/-- The type of a test implementation `test(self, data, absolute_offset,
parent_match)` as seen by the instrumentation. -/
def TestFn : Type :=
  MagicTest → List Nat → Int → Option TestResult → Option TestResult

/-- The fields of an `InstrumentedTest` read by `Debugger.debug`
(debugger.py:271-287): the saved original implementation, and the current
value of the class's `test` attribute (consulted only when the original
is gone). -/
structure InstrumentedTestM where
  originalTest : Option TestFn
  classTest : TestFn

/-- Translation of `Debugger.debug` (debugger.py:644-666), the body of the
wrapper installed by `InstrumentedTest`: evaluate the original test, skip
the snapshot update for one-off REPL tests (`repl_test is test`), record
the snapshot, enter the REPL when `should_break()` holds, and return
`self.last_result`.  The REPL (an interactive loop) is abstracted as a
state transformer argument `repl`. -/
def Debugger.debug (repl : DState → DState) (it : InstrumentedTestM) (st : DState)
    (test : MagicTest) (data : List Nat) (absoluteOffset : Int)
    (parentMatch : Option TestResult) : Option TestResult × DState :=
  let result :=
    match it.originalTest with
    | none => it.classTest test data absoluteOffset parentMatch
    | some f => f test data absoluteOffset parentMatch
  if st.replTest = some test then
    (result, st)
  else
    let st' := { st with
      lastResult := result
      lastTest := some test
      data := data
      lastOffset := absoluteOffset
      lastParentMatch := parentMatch }
    if Debugger.should_break st' then
      let st'' := repl st'
      (st''.lastResult, st'')
    else
      (st'.lastResult, st')

/-- Translation of `Debugger.save_context` (debugger.py:482-495): on
entry, `__enter__` captures `dict(self.__dict__)`; the body runs with the
live object; `__exit__` reassigns the captured dictionary on every exit
path, normal or exceptional (`with` statement semantics), so the attribute
record after release is the one captured on entry.  The body is modelled
as a state transformer that can also raise; its result value (or
exception) survives, its state does not. -/
def Debugger.save_context {ε α : Type} (st : DState)
    (body : DState → Except ε α × DState) : Except ε α × DState :=
  let saved := st
  match body st with
  | (outcome, _) => (outcome, saved)

/-- Output of the `show` REPL command, abstracted as the branch taken and
the text fragments written before the command completes or raises. -/
inductive ShowOutcome where
  | usage : ShowOutcome
  | allVariables : ShowOutcome
  | unknownVariable (name : String) : ShowOutcome
deriving DecidableEq

/-- Translation of the `show` branch of `Debugger.repl`
(debugger.py:1018-1048).  `variablesByName` carries the debugger's
`variables_by_name` keys with rendered values.  More than two tokens
prints usage; no token prints every variable; an unknown name prints the
"Unknown variable" error.  The known-variable branch evaluates the bare
name `variables_by_name` (debugger.py:1046), which is defined neither in
the enclosing function scope nor at module level, so the lookup raises
`NameError` instead of printing the value. -/
def Debugger.showCommand (variablesByName : List (String × String))
    (args : String) : Except PyErr ShowOutcome :=
  let parsed := pySplitWS (pyStrip args)
  if parsed.length > 2 then .ok .usage
  else
    match parsed with
    | [] => .ok .allVariables
    | name :: _ =>
      if (variablesByName.lookup name).isNone then .ok (.unknownVariable name)
      else .error (.nameError "variables_by_name")

/-- The debugger's variable table as built by `Debugger.__init__`
(debugger.py:471-473): the single variable `break_on_parsing`, rendered
at its default value `True`. -/
def defaultVariablesByName : List (String × String) :=
  [("break_on_parsing", "True")]

/-- A Python function object sitting in a method slot.  `base` values are
the pre-existing implementations; `testWrapper g i` and `parseWrapper g i`
are the distinct closures created by the `g`-th instrumentation pass for
class or parser number `i` (each `InstrumentedTest.__init__` /
`InstrumentedParser.__init__` builds a fresh `wrapper` closure, never
equal to any base function). -/
inductive SlotFn where
  | base (n : Nat) : SlotFn
  | testWrapper (gen idx : Nat) : SlotFn
  | parseWrapper (gen idx : Nat) : SlotFn
deriving DecidableEq

/-- The host engine's dispatch state: for each of the `numTests` test
classes in `TEST_TYPES`, the class's own `test` entry (`none` when the
class does not implement `test` itself, i.e. `"test" not in
test.__dict__`); for each of the `numParsers` parsers contributed by
`PARSERS`, its `parse` attribute.  `TEST_TYPES` and `PARSERS` live in
modules outside this snapshot; per the spec ("exactly one record exists
per instrumentable test class or parser at any time") each class and each
parser is listed once. -/
@[ext]
structure Host where
  numTests : Nat
  testSlot : Nat → Option SlotFn
  numParsers : Nat
  parseSlot : Nat → SlotFn

/-- Model of an `InstrumentedTest` record (debugger.py:271-296): which
class it wraps and the saved `original_test`. -/
structure InstTest where
  classIdx : Nat
  originalTest : Option SlotFn
deriving DecidableEq

/-- Model of an `InstrumentedParser` record (debugger.py:299-317). -/
structure InstParser where
  parserIdx : Nat
  originalParser : Option SlotFn
deriving DecidableEq

/-- The instrumentation-related state of a `Debugger`: the host dispatch,
the two instrumentation lists, the truthiness of `break_on_submatching`,
and a generation counter standing for the freshness of wrapper closures. -/
structure DebuggerInstr where
  host : Host
  instrumentedTests : List InstTest
  instrumentedParsers : List InstParser
  breakOnSubmatching : Bool
  gen : Nat

/-- One step of the `_instrument` loop over `TEST_TYPES`
(debugger.py:512-515 with `InstrumentedTest.__init__`,
debugger.py:272-286): when class `i` has its own `test` entry, save it as
`original_test`, install a fresh wrapper in the slot, and append the
record. -/
def instrumentTestStep (gen : Nat) (s : Host × List InstTest) (i : Nat) :
    Host × List InstTest :=
  match s.1.testSlot i with
  | some f =>
    ({ s.1 with testSlot := fun j => if j = i then some (.testWrapper gen i) else s.1.testSlot j },
     s.2 ++ [⟨i, some f⟩])
  | none => s

/-- One step of the `_instrument` loop over the parsers
(debugger.py:516-519 with `InstrumentedParser.__init__`,
debugger.py:300-308): save `parser.parse` as `original_parser`, install a
fresh wrapper, append the record. -/
def instrumentParserStep (gen : Nat) (s : Host × List InstParser) (i : Nat) :
    Host × List InstParser :=
  ({ s.1 with parseSlot := fun j => if j = i then .parseWrapper gen i else s.1.parseSlot j },
   s.2 ++ [⟨i, some (s.1.parseSlot i)⟩])

/-- Translation of `Debugger._instrument` (debugger.py:510-519):
instrument every test class that implements `test`, then — when
`break_on_submatching` is truthy — every parser. -/
def Debugger.instrument (d : DebuggerInstr) : DebuggerInstr :=
  let (h1, tRecs) :=
    (List.range d.host.numTests).foldl (instrumentTestStep d.gen)
      (d.host, d.instrumentedTests)
  if d.breakOnSubmatching then
    let (h2, pRecs) :=
      (List.range h1.numParsers).foldl (instrumentParserStep d.gen)
        (h1, d.instrumentedParsers)
    { d with host := h2, instrumentedTests := tRecs, instrumentedParsers := pRecs,
             gen := d.gen + 1 }
  else
    { d with host := h1, instrumentedTests := tRecs, gen := d.gen + 1 }

/-- Translation of `InstrumentedTest.uninstrument` (debugger.py:292-296)
applied to one record: when `original_test` is still present, write it
back into the class's `test` slot. -/
def uninstrumentTestStep (h : Host) (r : InstTest) : Host :=
  match r.originalTest with
  | some f => { h with testSlot := fun j => if j = r.classIdx then some f else h.testSlot j }
  | none => h

/-- Translation of `InstrumentedParser.uninstrument` (debugger.py:314-317)
applied to one record. -/
def uninstrumentParserStep (h : Host) (r : InstParser) : Host :=
  match r.originalParser with
  | some f => { h with parseSlot := fun j => if j = r.parserIdx then f else h.parseSlot j }
  | none => h

/-- Translation of `Debugger._uninstrument` (debugger.py:501-508):
uninstrument every test record, then every parser record, then clear both
lists. -/
def Debugger.uninstrument (d : DebuggerInstr) : DebuggerInstr :=
  let h1 := d.instrumentedTests.foldl uninstrumentTestStep d.host
  let h2 := d.instrumentedParsers.foldl uninstrumentParserStep h1
  { d with host := h2, instrumentedTests := [], instrumentedParsers := [] }

/-- Translation of the `Debugger.enabled` property (debugger.py:497-499):
some instrumented test still holds its original. -/
def DebuggerInstr.enabled (d : DebuggerInstr) : Bool :=
  d.instrumentedTests.any fun t => t.originalTest.isSome

/-- Translation of the `Debugger.enabled` setter (debugger.py:521-545):
always uninstrument first, then instrument again when enabling.  The
readline-history and REPL interactions of the setter perform I/O only and
do not touch the instrumentation state. -/
def Debugger.setEnabled (d : DebuggerInstr) (isEnabled : Bool) : DebuggerInstr :=
  let d1 := Debugger.uninstrument d
  if isEnabled then Debugger.instrument d1 else d1

/-- A fresh `Debugger.__init__` state over a given host: empty
instrumentation lists (debugger.py:454, 469). -/
def DebuggerInstr.init (h : Host) (breakOnParsing : Bool) : DebuggerInstr :=
  { host := h, instrumentedTests := [], instrumentedParsers := [],
    breakOnSubmatching := breakOnParsing, gen := 0 }

/-- A sequence of assignments to the `enabled` property. -/
def DebuggerInstr.runOps (d : DebuggerInstr) (ops : List Bool) : DebuggerInstr :=
  ops.foldl Debugger.setEnabled d

/-- Translation of the `BreakOnSubmatching.value` setter
(debugger.py:398-405): run the base `Variable` setter (which may raise and
then leaves everything unchanged); on success, when the debugger is
enabled, uninstrument and re-instrument it with the new flag. -/
def BreakOnSubmatching.setValue (v : PyVariable Bool) (d : DebuggerInstr)
    (newValue : Bool) : Except PyErr Unit × PyVariable Bool × DebuggerInstr :=
  match Variable.setValue v newValue with
  | (.error e, v') => (.error e, v', d)
  | (.ok _, v') =>
    let d1 := { d with breakOnSubmatching := v'.value }
    if d1.enabled then (.ok (), v', Debugger.instrument (Debugger.uninstrument d1))
    else (.ok (), v', d1)

/-- Closed form of the test-class half of `_instrument` applied to the
first `m` classes: every implemented slot holds a fresh wrapper. -/
def instrHostT (g m : Nat) (H : Host) : Host :=
  { H with testSlot := fun j =>
      if j < m ∧ (H.testSlot j).isSome then some (.testWrapper g j) else H.testSlot j }

/-- Closed form of the `InstrumentedTest` records produced for the first
`m` classes: one record per class that implements `test`, saving the
pre-instrumentation slot value. -/
def instrRecsT (m : Nat) (H : Host) : List InstTest :=
  (List.range m).filterMap fun i => (H.testSlot i).map fun f => ⟨i, some f⟩

/-- Closed form of the parser half of `_instrument` applied to the first
`m` parsers. -/
def instrHostP (g m : Nat) (H : Host) : Host :=
  { H with parseSlot := fun j =>
      if j < m then .parseWrapper g j else H.parseSlot j }

/-- Closed form of the `InstrumentedParser` records for the first `m`
parsers. -/
def instrRecsP (m : Nat) (H : Host) : List InstParser :=
  (List.range m).map fun i => ⟨i, some (H.parseSlot i)⟩

/-- The host dispatch of `d` is the pre-enable dispatch `H` and no
instrumentation record remains. -/
def CleanAt (d : DebuggerInstr) (H : Host) : Prop :=
  d.host = H ∧ d.instrumentedTests = [] ∧ d.instrumentedParsers = []

/-- Concrete test used by witnesses. -/
def wTest : MagicTest :=
  { id := 0, mimetypes := ["application/pdf"], allExtensions := ["pdf"],
    sourceInfo := some { pathStr := "/etc/archive", pathName := "archive", line := 525 } }

/-- Concrete test implementation used by witnesses: always reports no
result. -/
def wFn : TestFn := fun _ _ _ _ => none

/-- Concrete debugger snapshot used by the C1 witness: freshly
initialised, running, no breakpoints. -/
def wStateRunning : DState :=
  { stepMode := .running, lastCommand := none, lastTest := none,
    lastParentMatch := none, data := [], lastOffset := 0, lastResult := none,
    replTest := none, breakpoints := [] }

/-- Concrete debugger snapshot used by the C2 witness: single-stepping
with a recorded last test. -/
def wStateStepping : DState :=
  { stepMode := .singleStepping, lastCommand := none, lastTest := some wTest,
    lastParentMatch := none, data := [37, 80, 68, 70], lastOffset := 0,
    lastResult := none, replTest := none, breakpoints := [.mime "application/pdf"] }

/-- C1: evaluating a DSL test through the installed debugger hook
(`Debugger.debug`, reached via the `InstrumentedTest` wrapper) returns
exactly the result of the original, uninstrumented test implementation on
the same `(data, absolute_offset, parent_match)` triple, provided no
breakpoint or stepping condition makes the hook enter the REPL. -/
theorem C1_debug_transparent (repl : DState → DState) (it : InstrumentedTestM)
    (origFn : TestFn) (st : DState) (test : MagicTest) (data : List Nat)
    (absoluteOffset : Int) (parentMatch : Option TestResult)
    (hOrig : it.originalTest = some origFn)
    (hNoBreak : Debugger.should_break { st with
        lastResult := origFn test data absoluteOffset parentMatch
        lastTest := some test
        data := data
        lastOffset := absoluteOffset
        lastParentMatch := parentMatch } = false) :
    (Debugger.debug repl it st test data absoluteOffset parentMatch).1 =
      origFn test data absoluteOffset parentMatch := by
  unfold Debugger.debug
  rw [hOrig]
  by_cases hr : st.replTest = some test
  · simp [hr]
  · simp [hr, hNoBreak]

/-- Witness for C1 at a concrete state, test and implementation. -/
theorem C1_witness :
    (Debugger.debug id ⟨some wFn, wFn⟩ wStateRunning wTest [] 0 none).1 = none :=
  C1_debug_transparent id ⟨some wFn, wFn⟩ wFn wStateRunning wTest [] 0 none rfl (by decide)

/-- C2: `Debugger.should_break` holds exactly when the debugger is single
stepping, or is in `NEXT` mode with a truthy `last_result`, or some
breakpoint in the breakpoint list matches the current snapshot; the
breakpoint disjunct is part of the formula independently of the step mode,
so it is evaluated in `RUNNING` as well. -/
theorem C2_should_break_characterisation (st : DState) (t : MagicTest)
    (h : st.lastTest = some t) :
    Debugger.should_break st = true ↔
      (st.stepMode = .singleStepping ∨
       (st.stepMode = .next ∧ truthyOpt st.lastResult = true) ∨
       ∃ b ∈ st.breakpoints,
         b.shouldBreak t st.data st.lastOffset st.lastParentMatch st.lastResult = true) := by
  simp only [Debugger.should_break, h, Bool.or_eq_true, Bool.and_eq_true, beq_iff_eq,
    List.any_eq_true]
  exact or_assoc

/-- Witness for C2 at a concrete single-stepping state. -/
theorem C2_witness :
    Debugger.should_break wStateStepping = true ↔
      (wStateStepping.stepMode = .singleStepping ∨
       (wStateStepping.stepMode = .next ∧ truthyOpt wStateStepping.lastResult = true) ∨
       ∃ b ∈ wStateStepping.breakpoints,
         b.shouldBreak wTest wStateStepping.data wStateStepping.lastOffset
           wStateStepping.lastParentMatch wStateStepping.lastResult = true) :=
  C2_should_break_characterisation wStateStepping wTest rfl

/-- C3: the `FailedBreakpoint` wrapper matches a snapshot exactly when the
result is absent or a `FailedTest` and the wrapped breakpoint matches; the
`MatchedBreakpoint` wrapper matches exactly when the result is present,
not failed, and the wrapped breakpoint matches. -/
theorem C3_wrapper_breakpoints (B : Breakpoint) (t : MagicTest) (d : List Nat)
    (o : Int) (pm r : Option TestResult) :
    (Breakpoint.shouldBreak (.failed B) t d o pm r = true ↔
      ((r = none ∨ ∃ x, r = some x ∧ x.isFailedTest = true) ∧
        Breakpoint.shouldBreak B t d o pm r = true)) ∧
    (Breakpoint.shouldBreak (.matched B) t d o pm r = true ↔
      ((∃ x, r = some x ∧ x.isFailedTest = false) ∧
        Breakpoint.shouldBreak B t d o pm r = true)) := by
  cases r with
  | none => simp [Breakpoint.shouldBreak, isNoneOrFailed, isPresentNotFailed]
  | some x =>
    simp [Breakpoint.shouldBreak, isNoneOrFailed, isPresentNotFailed]

/-- C4: after a `save_context` scope is released — on any exit path,
normal or exceptional — every snapshot field of the debugger equals the
value it held on entry, whatever mutations the body performed. -/
theorem C4_save_context_restores {ε α : Type} (st : DState)
    (body : DState → Except ε α × DState) :
    (Debugger.save_context st body).2.data = st.data ∧
    (Debugger.save_context st body).2.lastTest = st.lastTest ∧
    (Debugger.save_context st body).2.lastOffset = st.lastOffset ∧
    (Debugger.save_context st body).2.lastParentMatch = st.lastParentMatch ∧
    (Debugger.save_context st body).2.lastResult = st.lastResult ∧
    (Debugger.save_context st body).2.lastCommand = st.lastCommand ∧
    (Debugger.save_context st body).2.replTest = st.replTest :=
  ⟨rfl, rfl, rfl, rfl, rfl, rfl, rfl⟩

/-- C7: a `FileBreakpoint` with filename `F` and line `N` matches a test
exactly when the test has source info, the source line equals `N`, and —
when `F` contains a slash — the full source path string equals `F`,
otherwise the basename of the source path equals `F`. -/
theorem C7_file_breakpoint (F : String) (N : Int) (t : MagicTest) (d : List Nat)
    (o : Int) (pm r : Option TestResult) :
    Breakpoint.shouldBreak (.file F N) t d o pm r = true ↔
      ∃ si, t.sourceInfo = some si ∧ si.line = N ∧
        ((pyContainsChar F slashChar = true ∧ si.pathStr = F) ∨
         (pyContainsChar F slashChar = false ∧ si.pathName = F)) := by
  cases hsi : t.sourceInfo with
  | none => simp [Breakpoint.shouldBreak, hsi]
  | some si =>
    by_cases hl : si.line = N
    · by_cases hc : pyContainsChar F slashChar = true
      · simp [Breakpoint.shouldBreak, hsi, hl, hc, beq_iff_eq]
      · simp [Breakpoint.shouldBreak, hsi, hl, hc, beq_iff_eq]
    · have hbne : (si.line != N) = true := by simp [hl]
      simp [Breakpoint.shouldBreak, hsi, hbne]
      intro hline
      exact absurd hline hl

/-- C8 counterexample: the claim says every token other than `0`/`f` that
is non-empty parses as `True`, but `"false"` — non-empty, and neither `0`
nor `f` after trimming and lowercasing — parses as `False`, because the
base `Variable.parse` already recognises it via `str(False)`. -/
theorem C8_counterexample :
    BooleanVariable.parse (BooleanVariable.mkVar true) "false" = false ∧
      pyLower (pyStrip "false") ≠ "0" ∧ pyLower (pyStrip "false") ≠ "f" ∧
      pyLower (pyStrip "false") ≠ "" := by
  refine ⟨?_, ?_, ?_, ?_⟩ <;> decide

/-- C8 amended: `BooleanVariable.parse` returns `True` when the trimmed,
lowercased token is `true`; returns `False` when it is `false`, `0` or
`f`; and otherwise returns `True` exactly when the trimmed token is
non-empty (so the all-whitespace and empty strings give `False`). -/
theorem C8_boolean_parse (stored : Bool) (s : String) :
    BooleanVariable.parse (BooleanVariable.mkVar stored) s =
      (if pyLower (pyStrip s) = "true" then true
       else if pyLower (pyStrip s) = "false" then false
       else if pyLower (pyStrip s) = "0" ∨ pyLower (pyStrip s) = "f" then false
       else pyLower (pyStrip s) != "") := by
  have htrue : pyLower "True" = "true" := rfl
  have hfalse : pyLower "False" = "false" := rfl
  unfold BooleanVariable.parse Variable.parse BooleanVariable.mkVar pyBoolStr
  simp only [List.find?, htrue, hfalse]
  by_cases h1 : pyLower (pyStrip s) = "true"
  · simp [h1]
  · by_cases h2 : pyLower (pyStrip s) = "false"
    · have e1 : ("true" == pyLower (pyStrip s)) = false := by
        simp
        intro hc
        exact h1 hc.symm
      simp [h2, e1]
    · have e1 : ("true" == pyLower (pyStrip s)) = false := by
        simp
        intro hc
        exact h1 hc.symm
      have e2 : ("false" == pyLower (pyStrip s)) = false := by
        simp
        intro hc
        exact h2 hc.symm
      simp only [e1, e2]
      by_cases h3 : pyLower (pyStrip s) = "0"
      · simp [h1, h2, h3]
      · by_cases h4 : pyLower (pyStrip s) = "f"
        · simp [h1, h2, h3, h4]
        · simp [h1, h2, h3, h4]

/-- C9: the REPL `show` command with the single known variable name is
intended to print its value and description without raising, but the
source reads the unqualified name `variables_by_name` (defined nowhere in
scope), so the known-variable branch raises `NameError`; the
unknown-variable branch does print the error and return normally. -/
theorem C9_show_known_variable_raises :
    Debugger.showCommand defaultVariablesByName "break_on_parsing" =
      .error (.nameError "variables_by_name") ∧
    Debugger.showCommand defaultVariablesByName "no_such_var" =
      .ok (.unknownVariable "no_such_var") :=
  ⟨rfl, rfl⟩

/-- C10: a `Variable`'s stored value is always one of its possibilities —
the checked constructor only yields values inside the list; a successful
setter call installs the new (listed) value; a rejected setter call
raises `ValueError` with the stored value untouched; the `BooleanVariable`
constructor always succeeds; and the `BreakOnSubmatching` setter (which
additionally re-instruments the debugger) preserves the invariant. -/
theorem C10_variable_invariant :
    (∀ {α : Type} [BEq α] (poss : List α) (val : α) (v : PyVariable α),
        Variable.mkChecked poss val = .ok v →
          v.possibilities.contains v.value = true) ∧
    (∀ {α : Type} [BEq α] (v : PyVariable α) (nv : α),
        v.possibilities.contains nv = true →
          Variable.setValue v nv = (.ok (), { v with value := nv }) ∧
          ({ v with value := nv } : PyVariable α).possibilities.contains
            ({ v with value := nv } : PyVariable α).value = true) ∧
    (∀ {α : Type} [BEq α] (v : PyVariable α) (nv : α),
        v.possibilities.contains nv = false →
          Variable.setValue v nv =
            (.error (.valueError "invalid value; must be one of the possibilities"), v)) ∧
    (∀ b : Bool, Variable.mkChecked [true, false] b = .ok (BooleanVariable.mkVar b)) ∧
    (∀ (v : PyVariable Bool) (d : DebuggerInstr) (nv : Bool),
        v.possibilities.contains v.value = true →
          ((BreakOnSubmatching.setValue v d nv).2.1).possibilities.contains
            ((BreakOnSubmatching.setValue v d nv).2.1).value = true) := by
  refine ⟨?_, ?_, ?_, ?_, ?_⟩
  · intro α _ poss val v h
    unfold Variable.mkChecked Variable.setValue at h
    by_cases hc : poss.contains val = true
    · simp only [hc, if_true] at h
      cases h
      simpa using hc
    · simp only [Bool.not_eq_true] at hc
      simp [hc] at h
  · intro α _ v nv h
    constructor
    · unfold Variable.setValue
      simp only [h, if_true]
    · simpa using h
  · intro α _ v nv h
    unfold Variable.setValue
    simp [h]
  · intro b
    cases b <;> rfl
  · intro v d nv hInv
    unfold BreakOnSubmatching.setValue Variable.setValue
    by_cases hc : v.possibilities.contains nv = true
    · simp only [hc, if_true]
      by_cases he : DebuggerInstr.enabled
          { d with breakOnSubmatching := nv } = true
      · simp only [he, if_true]
        simpa using hc
      · simp only [he, if_false]
        simpa using hc
    · simp only [Bool.not_eq_true] at hc
      simp only [hc, Bool.false_eq_true, if_false]
      exact hInv

theorem instrHostT_testSlot (g m : Nat) (H : Host) (j : Nat) :
    (instrHostT g m H).testSlot j =
      if j < m ∧ (H.testSlot j).isSome then some (.testWrapper g j)
      else H.testSlot j := rfl

theorem instrHostP_parseSlot (g m : Nat) (H : Host) (j : Nat) :
    (instrHostP g m H).parseSlot j =
      if j < m then .parseWrapper g j else H.parseSlot j := rfl

/-- The test-instrumentation fold over the first `m` classes yields the
closed-form host and appends the closed-form records. -/
theorem foldl_instrumentTestStep (g : Nat) :
    ∀ (m : Nat) (H : Host) (acc : List InstTest),
      (List.range m).foldl (instrumentTestStep g) (H, acc) =
        (instrHostT g m H, acc ++ instrRecsT m H) := by
  intro m
  induction m with
  | zero =>
    intro H acc
    simp only [List.range_zero, List.foldl_nil, instrRecsT, List.filterMap_nil,
      List.append_nil]
    refine Prod.ext ?_ rfl
    ext j <;> simp [instrHostT]
  | succ m ih =>
    intro H acc
    rw [List.range_succ, List.foldl_append, ih]
    simp only [List.foldl_cons, List.foldl_nil]
    have hrecs : instrRecsT (m + 1) H =
        instrRecsT m H ++ (instrRecsT (m + 1) H).drop (instrRecsT m H).length := by
      unfold instrRecsT
      rw [List.range_succ, List.filterMap_append]
      simp
    unfold instrumentTestStep
    have hslot : (instrHostT g m H).testSlot m = H.testSlot m := by
      rw [instrHostT_testSlot]
      simp
    rw [hslot]
    cases hm : H.testSlot m with
    | none =>
      simp only []
      refine Prod.ext ?_ ?_
      · show instrHostT g m H = instrHostT g (m + 1) H
        refine Host.ext rfl (funext fun j => ?_) rfl rfl
        rw [instrHostT_testSlot, instrHostT_testSlot]
        by_cases hj : j = m
        · subst hj
          simp [hm]
        · by_cases hjm : j < m
          · have : j < m + 1 := by omega
            simp [hjm, this]
          · have h1 : ¬ j < m + 1 := by omega
            simp [hjm, h1]
      · show acc ++ instrRecsT m H = acc ++ instrRecsT (m + 1) H
        have : instrRecsT (m + 1) H = instrRecsT m H := by
          unfold instrRecsT
          rw [List.range_succ, List.filterMap_append]
          simp [hm]
        rw [this]
    | some f =>
      simp only []
      refine Prod.ext ?_ ?_
      · show { instrHostT g m H with
            testSlot := fun j => if j = m then some (.testWrapper g m)
              else (instrHostT g m H).testSlot j } = instrHostT g (m + 1) H
        refine Host.ext rfl (funext fun j => ?_) rfl rfl
        show (if j = m then some (SlotFn.testWrapper g m)
            else (instrHostT g m H).testSlot j) = (instrHostT g (m + 1) H).testSlot j
        rw [instrHostT_testSlot, instrHostT_testSlot]
        by_cases hj : j = m
        · subst hj
          have hlt : j < j + 1 := by omega
          simp [hm, hlt]
        · by_cases hjm : j < m
          · have : j < m + 1 := by omega
            simp [hj, hjm, this]
          · have h1 : ¬ j < m + 1 := by omega
            simp [hj, hjm, h1]
      · show acc ++ instrRecsT m H ++ [⟨m, some f⟩] = acc ++ instrRecsT (m + 1) H
        have : instrRecsT (m + 1) H = instrRecsT m H ++ [⟨m, some f⟩] := by
          unfold instrRecsT
          rw [List.range_succ, List.filterMap_append]
          simp [hm]
        rw [this, List.append_assoc]

/-- Replaying the saved test records restores every saved slot. -/
theorem foldl_uninstrumentTestStep :
    ∀ (m : Nat) (H K : Host),
      (instrRecsT m H).foldl uninstrumentTestStep K =
        { K with testSlot := fun j =>
            if j < m ∧ (H.testSlot j).isSome then H.testSlot j
            else K.testSlot j } := by
  intro m
  induction m with
  | zero =>
    intro H K
    simp only [instrRecsT, List.range_zero, List.filterMap_nil, List.foldl_nil]
    ext j <;> simp
  | succ m ih =>
    intro H K
    cases hm : H.testSlot m with
    | none =>
      have hrec : instrRecsT (m + 1) H = instrRecsT m H := by
        unfold instrRecsT
        rw [List.range_succ, List.filterMap_append]
        simp [hm]
      rw [hrec, ih]
      refine Host.ext rfl (funext fun j => ?_) rfl rfl
      show (if j < m ∧ (H.testSlot j).isSome then H.testSlot j else K.testSlot j) =
        (if j < m + 1 ∧ (H.testSlot j).isSome then H.testSlot j else K.testSlot j)
      by_cases hj : j = m
      · subst hj
        simp [hm]
      · by_cases hjm : j < m
        · have : j < m + 1 := by omega
          simp [hjm, this]
        · have h1 : ¬ j < m + 1 := by omega
          simp [hjm, h1]
    | some f =>
      have hrec : instrRecsT (m + 1) H = instrRecsT m H ++ [⟨m, some f⟩] := by
        unfold instrRecsT
        rw [List.range_succ, List.filterMap_append]
        simp [hm]
      rw [hrec, List.foldl_append, ih]
      simp only [List.foldl_cons, List.foldl_nil]
      unfold uninstrumentTestStep
      simp only []
      refine Host.ext rfl (funext fun j => ?_) rfl rfl
      show (if j = m then some f
          else if j < m ∧ (H.testSlot j).isSome then H.testSlot j else K.testSlot j) =
        (if j < m + 1 ∧ (H.testSlot j).isSome then H.testSlot j else K.testSlot j)
      by_cases hj : j = m
      · subst hj
        have hlt : j < j + 1 := by omega
        simp [hm, hlt]
      · by_cases hjm : j < m
        · have : j < m + 1 := by omega
          simp [hj, hjm, this]
        · have h1 : ¬ j < m + 1 := by omega
          simp [hj, hjm, h1]

/-- The parser-instrumentation fold over the first `m` parsers yields the
closed-form host and appends the closed-form records. -/
theorem foldl_instrumentParserStep (g : Nat) :
    ∀ (m : Nat) (H : Host) (acc : List InstParser),
      (List.range m).foldl (instrumentParserStep g) (H, acc) =
        (instrHostP g m H, acc ++ instrRecsP m H) := by
  intro m
  induction m with
  | zero =>
    intro H acc
    simp only [List.range_zero, List.foldl_nil, instrRecsP, List.map_nil,
      List.append_nil]
    refine Prod.ext ?_ rfl
    ext j <;> simp [instrHostP]
  | succ m ih =>
    intro H acc
    rw [List.range_succ, List.foldl_append, ih]
    simp only [List.foldl_cons, List.foldl_nil]
    unfold instrumentParserStep
    have hslot : (instrHostP g m H).parseSlot m = H.parseSlot m := by
      rw [instrHostP_parseSlot]
      simp
    rw [hslot]
    refine Prod.ext ?_ ?_
    · show { instrHostP g m H with
          parseSlot := fun j => if j = m then .parseWrapper g m
            else (instrHostP g m H).parseSlot j } = instrHostP g (m + 1) H
      refine Host.ext rfl rfl rfl (funext fun j => ?_)
      show (if j = m then SlotFn.parseWrapper g m
          else (instrHostP g m H).parseSlot j) = (instrHostP g (m + 1) H).parseSlot j
      rw [instrHostP_parseSlot, instrHostP_parseSlot]
      by_cases hj : j = m
      · subst hj
        have hlt : j < j + 1 := by omega
        simp [hlt]
      · by_cases hjm : j < m
        · have : j < m + 1 := by omega
          simp [hj, hjm, this]
        · have h1 : ¬ j < m + 1 := by omega
          simp [hj, hjm, h1]
    · show acc ++ instrRecsP m H ++ [⟨m, some (H.parseSlot m)⟩] = acc ++ instrRecsP (m + 1) H
      have : instrRecsP (m + 1) H = instrRecsP m H ++ [⟨m, some (H.parseSlot m)⟩] := by
        unfold instrRecsP
        rw [List.range_succ, List.map_append]
        simp
      rw [this, List.append_assoc]

/-- Replaying the saved parser records restores every saved slot. -/
theorem foldl_uninstrumentParserStep :
    ∀ (m : Nat) (H K : Host),
      (instrRecsP m H).foldl uninstrumentParserStep K =
        { K with parseSlot := fun j =>
            if j < m then H.parseSlot j else K.parseSlot j } := by
  intro m
  induction m with
  | zero =>
    intro H K
    simp only [instrRecsP, List.range_zero, List.map_nil, List.foldl_nil]
    ext j <;> simp
  | succ m ih =>
    intro H K
    have hrec : instrRecsP (m + 1) H = instrRecsP m H ++ [⟨m, some (H.parseSlot m)⟩] := by
      unfold instrRecsP
      rw [List.range_succ, List.map_append]
      simp
    rw [hrec, List.foldl_append, ih]
    simp only [List.foldl_cons, List.foldl_nil]
    unfold uninstrumentParserStep
    simp only []
    refine Host.ext rfl rfl rfl (funext fun j => ?_)
    show (if j = m then H.parseSlot m
        else if j < m then H.parseSlot j else K.parseSlot j) =
      (if j < m + 1 then H.parseSlot j else K.parseSlot j)
    by_cases hj : j = m
    · subst hj
      have hlt : j < j + 1 := by omega
      simp [hlt]
    · by_cases hjm : j < m
      · have : j < m + 1 := by omega
        simp [hj, hjm, this]
      · have h1 : ¬ j < m + 1 := by omega
        simp [hj, hjm, h1]

theorem instrHostT_numTests (g m : Nat) (H : Host) :
    (instrHostT g m H).numTests = H.numTests := rfl

theorem instrHostT_numParsers (g m : Nat) (H : Host) :
    (instrHostT g m H).numParsers = H.numParsers := rfl

theorem instrHostT_parseSlot (g m : Nat) (H : Host) :
    (instrHostT g m H).parseSlot = H.parseSlot := rfl

theorem instrHostP_testSlot (g m : Nat) (H : Host) :
    (instrHostP g m H).testSlot = H.testSlot := rfl

theorem instrRecsP_instrHostT (g n m : Nat) (H : Host) :
    instrRecsP m (instrHostT g n H) = instrRecsP m H := rfl

/-- Uninstrumenting a debugger whose instrumentation lists are empty
changes nothing. -/
theorem uninstrument_of_clean (d : DebuggerInstr)
    (ht : d.instrumentedTests = []) (hp : d.instrumentedParsers = []) :
    Debugger.uninstrument d = d := by
  cases d with
  | mk host tList pList bos g =>
    simp only at ht hp
    subst ht
    subst hp
    rfl

/-- Instrumenting a clean debugger and then uninstrumenting it returns
the host dispatch to its pre-enable state and empties both lists. -/
theorem instrument_uninstrument_roundtrip (d : DebuggerInstr) (H : Host)
    (hH : d.host = H) (ht : d.instrumentedTests = [])
    (hp : d.instrumentedParsers = []) :
    CleanAt (Debugger.uninstrument (Debugger.instrument d)) H := by
  cases d with
  | mk host tList pList bos g =>
    simp only at hH ht hp
    subst hH
    subst ht
    subst hp
    unfold Debugger.instrument
    simp only [foldl_instrumentTestStep, List.nil_append]
    by_cases hb : bos = true
    · subst hb
      simp only [if_true]
      simp only [foldl_instrumentParserStep, List.nil_append, instrHostT_numParsers,
        instrRecsP_instrHostT]
      unfold Debugger.uninstrument
      simp only [foldl_uninstrumentTestStep, foldl_uninstrumentParserStep]
      refine ⟨?_, rfl, rfl⟩
      refine Host.ext rfl (funext fun j => ?_) rfl (funext fun j => ?_)
      · show (if j < host.numTests ∧ (host.testSlot j).isSome then host.testSlot j
            else (instrHostP g host.numParsers (instrHostT g host.numTests host)).testSlot j) =
          host.testSlot j
        rw [instrHostP_testSlot, instrHostT_testSlot]
        by_cases hc : j < host.numTests ∧ (host.testSlot j).isSome = true
        · simp [hc]
        · simp [hc]
      · show (if j < host.numParsers then (instrHostT g host.numTests host).parseSlot j
            else (instrHostP g host.numParsers (instrHostT g host.numTests host)).parseSlot j) =
          host.parseSlot j
        rw [instrHostT_parseSlot, instrHostP_parseSlot, instrHostT_parseSlot]
        by_cases hc : j < host.numParsers
        · simp [hc]
        · simp [hc]
    · simp only [Bool.not_eq_true] at hb
      subst hb
      simp only [Bool.false_eq_true, if_false]
      unfold Debugger.uninstrument
      simp only [List.foldl_nil, foldl_uninstrumentTestStep]
      refine ⟨?_, rfl, rfl⟩
      refine Host.ext rfl (funext fun j => ?_) rfl rfl
      show (if j < host.numTests ∧ (host.testSlot j).isSome then host.testSlot j
          else (instrHostT g host.numTests host).testSlot j) = host.testSlot j
      rw [instrHostT_testSlot]
      by_cases hc : j < host.numTests ∧ (host.testSlot j).isSome = true
      · simp [hc]
      · simp [hc]

/-- Setting the `enabled` property preserves restorability of the
pre-enable host dispatch. -/
theorem setEnabled_restorable (d : DebuggerInstr) (H : Host)
    (h : CleanAt (Debugger.uninstrument d) H) (b : Bool) :
    CleanAt (Debugger.uninstrument (Debugger.setEnabled d b)) H := by
  unfold Debugger.setEnabled
  by_cases hb : b = true
  · subst hb
    simp only [if_true]
    exact instrument_uninstrument_roundtrip _ H h.1 h.2.1 h.2.2
  · simp only [Bool.not_eq_true] at hb
    subst hb
    simp only [Bool.false_eq_true, if_false]
    rw [uninstrument_of_clean (Debugger.uninstrument d) rfl rfl]
    exact h

/-- Any sequence of `enabled` assignments preserves restorability. -/
theorem runOps_restorable (H : Host) (ops : List Bool) :
    ∀ d : DebuggerInstr, CleanAt (Debugger.uninstrument d) H →
      CleanAt (Debugger.uninstrument (DebuggerInstr.runOps d ops)) H := by
  induction ops with
  | nil => intro d h; exact h
  | cons op rest ih =>
    intro d h
    exact ih (Debugger.setEnabled d op) (setEnabled_restorable d H h op)

/-- C5: after any finite sequence of enable/disable operations followed by
a final disable, no test class and no parser carries a hook — the host
dispatch equals the pre-enable dispatch and both instrumentation lists are
empty; moreover disable is idempotent: a second consecutive disable
changes nothing. -/
theorem C5_disable_restores_host :
    (∀ (H : Host) (b : Bool) (ops : List Bool),
       (Debugger.setEnabled (DebuggerInstr.runOps (DebuggerInstr.init H b) ops) false).host = H ∧
       (Debugger.setEnabled (DebuggerInstr.runOps (DebuggerInstr.init H b) ops)
         false).instrumentedTests = [] ∧
       (Debugger.setEnabled (DebuggerInstr.runOps (DebuggerInstr.init H b) ops)
         false).instrumentedParsers = []) ∧
    (∀ d : DebuggerInstr,
       Debugger.setEnabled (Debugger.setEnabled d false) false =
         Debugger.setEnabled d false) := by
  have hfalse : ∀ x : DebuggerInstr, Debugger.setEnabled x false = Debugger.uninstrument x := by
    intro x
    unfold Debugger.setEnabled
    simp
  constructor
  · intro H b ops
    have h0 : CleanAt (Debugger.uninstrument (DebuggerInstr.init H b)) H := by
      rw [uninstrument_of_clean _ rfl rfl]
      exact ⟨rfl, rfl, rfl⟩
    have h1 := runOps_restorable H ops (DebuggerInstr.init H b) h0
    rw [hfalse]
    exact h1
  · intro d
    rw [hfalse, hfalse, uninstrument_of_clean (Debugger.uninstrument d) rfl rfl]

/-- C6: `Breakpoint.from_str` is total — every input yields a breakpoint
or `None`, never an exception — and proceeds in order: a leading `!`
parses the remainder recursively and wraps it as a `FailedBreakpoint`, a
leading `=` as a `MatchedBreakpoint`, and otherwise the registered base
variants are probed in order (MIME, extension, file); a prefix whose
remainder is unparseable (including empty) propagates `None`, and a
`File` form parses only with a positive line number. -/
theorem C6_from_str_structure :
    (∀ cs : List Char,
       Breakpoint.from_str (String.mk ('!' :: cs)) =
         (Breakpoint.from_str (String.mk cs)).map .failed) ∧
    (∀ cs : List Char,
       Breakpoint.from_str (String.mk ('=' :: cs)) =
         (Breakpoint.from_str (String.mk cs)).map .matched) ∧
    (∀ (c : Char) (cs : List Char), c ≠ '!' → c ≠ '=' →
       Breakpoint.from_str (String.mk (c :: cs)) =
         Breakpoint.probe (String.mk (c :: cs))) ∧
    (Breakpoint.from_str "!" = none ∧ Breakpoint.from_str "=" = none) ∧
    (∀ cs : List Char, Breakpoint.from_str (String.mk cs) = none →
       Breakpoint.from_str (String.mk ('!' :: cs)) = none ∧
       Breakpoint.from_str (String.mk ('=' :: cs)) = none) ∧
    (∀ (s filename : String) (line : Int),
       FileBreakpoint.parse s = some (.file filename line) → 0 < line) ∧
    (∀ s : String,
       (Breakpoint.from_str s).isSome = true ∨ Breakpoint.from_str s = none) := by
  have hbang : ∀ cs : List Char,
      Breakpoint.from_str (String.mk ('!' :: cs)) =
        (Breakpoint.from_str (String.mk cs)).map .failed := by
    intro cs
    show Breakpoint.fromStrChars ('!' :: cs) = _
    simp [Breakpoint.fromStrChars]
    rfl
  have heqs : ∀ cs : List Char,
      Breakpoint.from_str (String.mk ('=' :: cs)) =
        (Breakpoint.from_str (String.mk cs)).map .matched := by
    intro cs
    show Breakpoint.fromStrChars ('=' :: cs) = _
    simp [Breakpoint.fromStrChars]
    rfl
  refine ⟨hbang, heqs, ?_, ?_, ?_, ?_, ?_⟩
  · intro c cs h1 h2
    show Breakpoint.fromStrChars (c :: cs) = _
    simp [Breakpoint.fromStrChars, h1, h2]
  · constructor
    · have := hbang []
      simpa using this
    · have := heqs []
      simpa using this
  · intro cs h
    constructor
    · rw [hbang cs, h]
      rfl
    · rw [heqs cs, h]
      rfl
  · intro s filename line h
    unfold FileBreakpoint.parse at h
    split at h
    · exact Option.noConfusion h
    · next fn remainder =>
      split at h
      · exact Option.noConfusion h
      · split at h
        · exact Option.noConfusion h
        · next l hpy =>
          split at h
          · exact Option.noConfusion h
          · next hle =>
            simp only [Option.some.injEq, Breakpoint.file.injEq] at h
            omega
  · intro s
    cases h : Breakpoint.from_str s with
    | none => exact Or.inr rfl
    | some b => exact Or.inl rfl

/-- Witness for C6 at concrete commands: a non-prefixed command is handed
to the probe chain, and the `File` positivity fact applied at `a:1:2`
(which joins the colon pieces into line `12`). -/
theorem C6_witness :
    Breakpoint.from_str (String.mk ('m' :: "ime:x".data)) =
        Breakpoint.probe (String.mk ('m' :: "ime:x".data)) ∧
    Breakpoint.from_str (String.mk ('!' :: "ext:zip".data)) =
        (Breakpoint.from_str (String.mk "ext:zip".data)).map .failed ∧
    (0 : Int) < 12 :=
  ⟨C6_from_str_structure.2.2.1 'm' "ime:x".data (by decide) (by decide),
   C6_from_str_structure.1 "ext:zip".data,
   C6_from_str_structure.2.2.2.2.2.1 "a:1:2" "a" 12 (by decide)⟩

/-- Witness for C10 at concrete inputs: assigning a value outside the
possibilities fails and leaves the variable unchanged; assigning a listed
value succeeds. -/
theorem C10_witness :
    Variable.setValue (⟨[1, 2, 3], 2⟩ : PyVariable Nat) 7 =
        (.error (.valueError "invalid value; must be one of the possibilities"),
         (⟨[1, 2, 3], 2⟩ : PyVariable Nat)) ∧
    Variable.setValue (⟨[1, 2, 3], 2⟩ : PyVariable Nat) 3 =
        (.ok (), (⟨[1, 2, 3], 3⟩ : PyVariable Nat)) :=
  ⟨C10_variable_invariant.2.2.1 (⟨[1, 2, 3], 2⟩ : PyVariable Nat) 7 (by decide),
   (C10_variable_invariant.2.1 (⟨[1, 2, 3], 2⟩ : PyVariable Nat) 3 (by decide)).1⟩

end PolyfileDebugger
